import Mathlib

/-!
Shallow embedding of the Atlantis fork's Bitbucket VCS client
(`server/events/vcs` bitbucket implementation), the ECS credential
bootstrap (`server/events`), the apply executor's external-approval
gate (`ApplyExecutor` in `server/events`), and the server command's
configuration validation (`cmd/server.go`), together with proofs about
the claims of the specification.

Network and filesystem effects are made explicit: functions that in Go
perform I/O are embedded as pure functions of the effect's outcome
(the HTTP response delivered by the transport, the error result of a
filesystem call), so that every control-flow decision of the source is
preserved and checkable.
-/

namespace Atlantis

/-! ## JSON values and response bodies

The Go code passes response bodies through `encoding/json`. We model a
JSON document as an inductive value, and a wire body either as a raw
string together with the JSON value it parses to, or as a raw string
that is not valid JSON (so `json.Unmarshal` fails on it).
-/

inductive Json where
  | null : Json
  | bool (b : Bool) : Json
  | num (n : Int) : Json
  | str (s : String) : Json
  | arr (elems : List Json) : Json
  | obj (fields : List (String × Json)) : Json

/-- Look up a key in the field list of a JSON object. -/
def jsonLookup (key : String) : List (String × Json) → Option Json
  | [] => none
  | (k, v) :: rest => if k = key then some v else jsonLookup key rest

/-- An HTTP response body as received on the wire: either text that
parses as the given JSON value, or text that is not valid JSON. -/
inductive Body where
  | json (j : Json) (raw : String) : Body
  | raw (s : String) : Body

/-- The raw text of a body (Go `string(body)` after `ioutil.ReadAll`). -/
def Body.rawText : Body → String
  | Body.json _ t => t
  | Body.raw s => s

/-! ## Data model (`models.Repo`, `models.PullRequest`, `CommitStatus`) -/

structure Repo where
  Owner : String
  Name : String
  FullName : String

structure PullRequest where
  Num : Nat
  HeadCommit : String

/-- `CommitStatus` is a Go integer enum (`iota`): Pending, Success,
Failed, as enumerated by the spec's data model. -/
def Pending : Nat := 0

def Success : Nat := 1

def Failed : Nat := 2

/-! ## Bitbucket client (`server/events/vcs`, src/unnamed/part_000 lines 1-182) -/

structure bitbucketCommitStatus where
  State : String
  Key : String
  Name : String
  URL : String
  Description : String

/-- `bitbucketAPIError`: the single error type raised on API failures.
The Go field `Type` (JSON tag `type`) is named `typ` here because
`Type` is a Lean keyword. -/
structure bitbucketAPIError where
  Message : String
  typ : String
  StatusCode : Nat
  Endpoint : String

structure BitbucketClient where
  username : String
  password : String

/-- An outgoing HTTP request as the client constructs it in `do`:
method, URL, attached body, Content-Type header, basic-auth
credentials, and the `req.Close` flag. The body is the JSON document
the attached reader would carry, `none` when no reader is attached. -/
structure HttpRequest where
  method : String
  url : String
  body : Option Json
  contentType : Option String
  basicAuth : Option (String × String)
  closeAfter : Bool

/-- An HTTP response delivered by the transport: its status code and
the outcome of reading its body (`ioutil.ReadAll` can fail). -/
structure HttpResponse where
  statusCode : Nat
  readBody : Except String Body

def baseURL : String := "https://api.bitbucket.org/2.0/"

/-- Request construction in `BitbucketClient.do` (lines 51-66): the URL
is `fmt.Sprintf("%s/%s", baseURL, endpoint)`; the request is created
with the never-assigned `var bodyreader io.Reader`, so the payload
buffer is not attached; basic auth is set from the client's
credentials; a Content-Type header is added exactly when a payload was
passed; and `req.Close = true` disables connection reuse. -/
def buildRequest (b : BitbucketClient) (method endpoint : String)
    (payload : Option Json) : HttpRequest :=
  { method := method
    url := baseURL ++ "/" ++ endpoint
    body := none
    contentType := if payload.isSome then some "application/json" else none
    basicAuth := some (b.username, b.password)
    closeAfter := true }

/-- Go `json.Unmarshal(body, &apiError)` for the two tagged fields
`error` and `type`: succeeds on a JSON object (absent fields keep
their zero value) or on JSON `null`; fails on non-object JSON, on a
wrong-typed field, and on text that is not valid JSON. -/
def unmarshalBitbucketAPIError (b : Body) : Option (String × String) :=
  match b with
  | Body.json Json.null _ => some ("", "")
  | Body.json (Json.obj fields) _ =>
    match jsonLookup "error" fields, jsonLookup "type" fields with
    | none, none => some ("", "")
    | some (Json.str m), none => some (m, "")
    | none, some (Json.str t) => some ("", t)
    | some (Json.str m), some (Json.str t) => some (m, t)
    | _, _ => none
  | _ => none

/-- The best-effort diagnostic message for an API error body: the
decoded `error` field when the body unmarshals, the raw body text
otherwise (lines 84-86). -/
def bestEffortMessage (b : Body) : String :=
  match unmarshalBitbucketAPIError b with
  | some (m, _) => m
  | none => b.rawText

/-- Errors `do` can return: a transport failure from `client.Do`, a
failure reading the response body, or the constructed API error. -/
inductive DoError where
  | transport (msg : String) : DoError
  | readFail (msg : String) : DoError
  | api (e : bitbucketAPIError) : DoError

/-- Response handling in `BitbucketClient.do` (lines 73-91): a status
code at least 400 or below 200 produces a `bitbucketAPIError` carrying
the status code, the endpoint and the best-effort message (or the body
read error when the body cannot be read); any other status returns the
response with a nil error. -/
def doResponse (endpoint : String) (resp : HttpResponse) :
    Except DoError HttpResponse :=
  if 400 ≤ resp.statusCode ∨ resp.statusCode < 200 then
    match resp.readBody with
    | Except.error m => Except.error (DoError.readFail m)
    | Except.ok body =>
      Except.error (DoError.api
        { Message := bestEffortMessage body
          typ := (match unmarshalBitbucketAPIError body with
                  | some (_, t) => t
                  | none => "")
          StatusCode := resp.statusCode
          Endpoint := endpoint })
  else
    Except.ok resp

/-- `BitbucketClient.do` as a function of the transport's outcome:
`client.Do` failure is returned as-is, otherwise the response is
post-processed by `doResponse`. -/
def doRequest (endpoint : String) (transport : Except String HttpResponse) :
    Except DoError HttpResponse :=
  match transport with
  | Except.error m => Except.error (DoError.transport m)
  | Except.ok resp => doResponse endpoint resp

/-- Errors `PullIsApproved` can return: an error from `do`, a body
read failure, or a JSON parse failure. -/
inductive VcsError where
  | fromDo (e : DoError) : VcsError
  | readFail (msg : String) : VcsError
  | parseFail : VcsError

def pullRequestURL (repo : Repo) (pull : PullRequest) : String :=
  "repositories/" ++ repo.Owner ++ "/" ++ repo.Name ++
    "/pullrequests?fields=values.id,values.reviewers.approved&q=id=" ++
    toString pull.Num

/-- Go `json.Unmarshal(body, &map[string]interface obj)`: succeeds
exactly on a JSON object (or `null`, which leaves the map empty). -/
def unmarshalJsonMap (b : Body) : Option (List (String × Json)) :=
  match b with
  | Body.json (Json.obj fields) _ => some fields
  | Body.json Json.null _ => some []
  | _ => none

/-- `BitbucketClient.PullIsApproved` (lines 116-136) as a function of
the `do` call's outcome: propagate any `do` error, any body read
error, and any JSON parse error; on the success path return
`(false, nil)` unconditionally — the parsed pull request is never
inspected. -/
def PullIsApproved (doResult : Except DoError HttpResponse) :
    Except VcsError Bool :=
  match doResult with
  | Except.error e => Except.error (VcsError.fromDo e)
  | Except.ok resp =>
    match resp.readBody with
    | Except.error m => Except.error (VcsError.readFail m)
    | Except.ok body =>
      match unmarshalJsonMap body with
      | none => Except.error VcsError.parseFail
      | some _ => Except.ok false

/-- `GetModifiedFiles` (lines 106-108): the body is `return nil, nil`,
an empty file list with a nil error, for every repo and pull. -/
def GetModifiedFiles (_repo : Repo) (_pull : PullRequest) :
    Except VcsError (List String) :=
  Except.ok []

/-- The `switch state` in `UpdateStatus` (lines 143-152): `bbState`
starts as "FAILED" and each enumerated case overwrites it; a value
outside the enumeration keeps the "FAILED" default. -/
def bbState (state : Nat) : String :=
  if state = Pending then "INPROGRESS"
  else if state = Success then "SUCCESSFUL"
  else if state = Failed then "FAILED"
  else "FAILED"

/-- The `bitbucketCommitStatus` value `UpdateStatus` builds
(lines 154-160). -/
def updateStatusPayload (state : Nat) (description : String) :
    bitbucketCommitStatus :=
  { Name := "Atlantis"
    State := bbState state
    Key := "FIXME"
    URL := "localhost:4141/bla"
    Description := description }

/-- Go `json.NewEncoder(payload).Encode(status)` for
`bitbucketCommitStatus`: a JSON object with the struct's field names
as keys. -/
def encodeCommitStatus (s : bitbucketCommitStatus) : Json :=
  Json.obj [("State", Json.str s.State), ("Key", Json.str s.Key),
            ("Name", Json.str s.Name), ("URL", Json.str s.URL),
            ("Description", Json.str s.Description)]

def commitStatusURL (repo : Repo) (pull : PullRequest) : String :=
  "repositories/" ++ repo.Owner ++ "/" ++ repo.Name ++ "/commit/" ++
    pull.HeadCommit ++ "/statuses/build"

/-- The HTTP request `UpdateStatus` (lines 139-177) hands to `do`: a
POST to the commit-status endpoint with the encoded status JSON as the
payload argument. -/
def updateStatusRequest (b : BitbucketClient) (repo : Repo)
    (pull : PullRequest) (state : Nat) (description : String) : HttpRequest :=
  buildRequest b "POST" (commitStatusURL repo pull)
    (some (encodeCommitStatus (updateStatusPayload state description)))

/-! ## ECS credential bootstrap (`server/events`, src/unnamed/part_000
lines 184-248) -/

structure EcsCredentials where
  AccessKeyId : String
  Expiration : String
  RoleArn : String
  SecretAccessKey : String
  Token : String

/-- The rendered credentials file content (lines 228-235). -/
def awsCredentialsTemplate (c : EcsCredentials) : String :=
  String.intercalate "\n"
    ["[default]",
     "aws_access_key_id=" ++ c.AccessKeyId,
     "aws_secret_access_key=" ++ c.SecretAccessKey,
     "aws_session_token=" ++ c.Token]

/-- `writeAwsCredentials` (lines 227-248) as a function of the two
filesystem effects' outcomes (`none` = nil error). A `MkdirAll` error
is returned. A `WriteFile` error is bound to the separate variable
`werr`, but the branch `if werr != nil` returns the earlier variable
`err` — which is nil at that point — not `werr`. -/
def writeAwsCredentials (mkdirErr : Option String)
    (writeErr : Option String) : Option String :=
  match mkdirErr with
  | some e => some e
  | none =>
    match writeErr with
    | some _ => none
    | none => none

/-! ## Server command configuration validation (`cmd/server.go`) -/

/-- The fields of `server.Config` that `validate` reads. -/
structure Config where
  LogLevel : String
  GithubUser : String
  GithubToken : String
  GitlabUser : String
  GitlabToken : String
  EnvDetectionWorkflow : String
  GitflowEnvBranchMapping : List String
  RequireExternalApproval : Bool
  ApprovalURL : String

/-- Number of occurrences of ":" in a string:
`len(sep.FindAllStringIndex(val, -1))` for the regexp ":". -/
def countColon (s : String) : Nat :=
  (s.toList.filter (fun c => c = ':')).length

def vcsErrMsg : String :=
  "--gh-user/--gh-token or --gitlab-user/--gitlab-token must be set"

/-- `validate` (cmd/server.go lines 293-336): log level, the three
credential checks (a user without its token or a token without its
user is rejected for each provider, then both-providers-empty is
rejected), the environment-detection workflow, the gitflow
env:branch mappings (each must contain exactly one ":"), and the
external-approval flag requiring an approval URL. -/
def validate (c : Config) : Option String :=
  if ¬(c.LogLevel = "debug" ∨ c.LogLevel = "info" ∨ c.LogLevel = "warn" ∨
       c.LogLevel = "error") then
    some "invalid log level: not one of debug, info, warn, error"
  else if (c.GithubUser ≠ "" ∧ c.GithubToken = "") ∨
          (c.GithubToken ≠ "" ∧ c.GithubUser = "") then
    some vcsErrMsg
  else if (c.GitlabUser ≠ "" ∧ c.GitlabToken = "") ∨
          (c.GitlabToken ≠ "" ∧ c.GitlabUser = "") then
    some vcsErrMsg
  else if c.GithubUser = "" ∧ c.GitlabUser = "" then
    some vcsErrMsg
  else if ¬(c.EnvDetectionWorkflow = "modifiedfiles" ∨
            c.EnvDetectionWorkflow = "gitflow") then
    some "invalid env detection workflow: not one of modifiedfiles, gitflow"
  else
    match c.GitflowEnvBranchMapping.find? (fun v => countColon v != 1) with
    | some v =>
      some ("Invalid GitflowEnvBranchMapping argument " ++ v ++
            ". Must be env:branch")
    | none =>
      if c.RequireExternalApproval ∧ c.ApprovalURL = "" then
        some "--require-approval requires --approval-url to be set"
      else
        none

/-! ## External approval gate of the apply command
(`ApplyExecutor`, src/buildspec.yml lines 79-266) -/

/-- `externalApproval` (src/buildspec.yml lines 113-117): the shape
`json.Unmarshal` decodes the approval endpoint's response body into. -/
structure externalApproval where
  PullRequest : String
  ApprovedBy : String
  Approved : Bool
deriving DecidableEq

/-- ASCII lowercasing of one character. -/
def lowerChar (c : Char) : Char :=
  if 65 ≤ c.toNat ∧ c.toNat ≤ 90 then Char.ofNat (c.toNat + 32) else c

/-- ASCII case-insensitive string comparison. -/
def eqCaseInsensitive (a b : String) : Bool :=
  a.toList.map lowerChar == b.toList.map lowerChar

/-- Case-insensitive JSON object key lookup: Go `encoding/json`
matches struct field names case-insensitively. The key is supplied
lowercased. -/
def jsonLookupCI (key : String) : List (String × Json) → Option Json
  | [] => none
  | (k, v) :: rest =>
    if eqCaseInsensitive k key then some v else jsonLookupCI key rest

/-- Decoding of one string field of `externalApproval`: an absent key
keeps the zero value "", a JSON string decodes, any other type is an
`Unmarshal` type error. -/
def decodeStringField (key : String) (fields : List (String × Json)) :
    Option String :=
  match jsonLookupCI key fields with
  | none => some ""
  | some (Json.str s) => some s
  | some _ => none

/-- Decoding of the bool field of `externalApproval`: an absent key
keeps the zero value false, a JSON bool decodes, any other type is an
`Unmarshal` type error. -/
def decodeBoolField (key : String) (fields : List (String × Json)) :
    Option Bool :=
  match jsonLookupCI key fields with
  | none => some false
  | some (Json.bool b) => some b
  | some _ => none

/-- Go `json.Unmarshal(body, &approval)` for `externalApproval`:
succeeds on a JSON object whose matched fields (`PullRequest` and
`ApprovedBy` strings, `Approved` bool, matched case-insensitively)
have the right types — absent fields keep their zero values — and on
JSON `null`; fails on non-object JSON, on a wrong-typed matched field,
and on text that is not valid JSON. -/
def unmarshalExternalApproval (b : Body) : Option externalApproval :=
  match b with
  | Body.json Json.null _ =>
    some { PullRequest := "", ApprovedBy := "", Approved := false }
  | Body.json (Json.obj fields) _ =>
    (match decodeStringField "pullrequest" fields,
           decodeStringField "approvedby" fields,
           decodeBoolField "approved" fields with
     | some pr, some ab, some ap =>
       some { PullRequest := pr, ApprovedBy := ab, Approved := ap }
     | _, _, _ => none)
  | _ => none

/-- The decoded `approval.Approved` when the body unmarshals, `none`
when `json.Unmarshal` fails. -/
def approvedDecoded (b : Body) : Option Bool :=
  match unmarshalExternalApproval b with
  | some a => some a.Approved
  | none => none

/-- Result of `checkExternalApproval`: the Go `(bool, error)` pair, or
the nil-pointer crash of `req.Header.Set` when `http.NewRequest`
fails — the header is set on the nil request before the error check
(src/buildspec.yml lines 125-130). -/
inductive CheckApprovalResult where
  | ret (approved : Bool) (err : Option String) : CheckApprovalResult
  | crashNilRequest : CheckApprovalResult
deriving DecidableEq

/-- `ApplyExecutor.checkExternalApproval` (src/buildspec.yml lines
119-162) as a function of the request-construction and transport
outcomes. On a 200 response: a body read error is returned as the
error; an `Unmarshal` failure returns `(false, err)` where `err` is
the stale nil error of the preceding `ReadAll`, hence `(false, nil)`;
otherwise `(approval.Approved, nil)`. Every non-200 status — the
explicit `>= 400 || < 200` branch and the final fallthrough alike —
returns `(false, nil)`. -/
def checkExternalApproval (newRequest : Except String Unit)
    (transport : Except String HttpResponse) : CheckApprovalResult :=
  match newRequest with
  | Except.error _ => CheckApprovalResult.crashNilRequest
  | Except.ok _ =>
    match transport with
    | Except.error m => CheckApprovalResult.ret false (some m)
    | Except.ok resp =>
      if resp.statusCode = 200 then
        match resp.readBody with
        | Except.error m => CheckApprovalResult.ret false (some m)
        | Except.ok body =>
          match unmarshalExternalApproval body with
          | none => CheckApprovalResult.ret false none
          | some approval =>
            if approval.Approved then CheckApprovalResult.ret true none
            else CheckApprovalResult.ret false none
      else
        CheckApprovalResult.ret false none

/-- One step of `ApplyExecutor.Execute`: continue, a top-level
`CommandResponse.Failure`, a top-level `CommandResponse.Error`, or a
crash of the process. -/
inductive GateStep where
  | continueApply : GateStep
  | failure (msg : String) : GateStep
  | errorResponse (msg : String) : GateStep
  | crash : GateStep
deriving DecidableEq

/-- The external-approval gate inside `ApplyExecutor.Execute`
(src/buildspec.yml lines 176-185): skipped unless
`RequireExternalApproval` is set; a non-nil error from
`checkExternalApproval` becomes a top-level error wrapped with
"checking if pull request was approved (external)", an unapproved
result becomes the fixed top-level failure, and approval lets the
command continue. -/
def applyExternalApprovalGate (requireExternalApproval : Bool)
    (newRequest : Except String Unit)
    (transport : Except String HttpResponse) : GateStep :=
  if requireExternalApproval then
    match checkExternalApproval newRequest transport with
    | CheckApprovalResult.crashNilRequest => GateStep.crash
    | CheckApprovalResult.ret approved err =>
      match err with
      | some m =>
        GateStep.errorResponse
          ("checking if pull request was approved (external): " ++ m)
      | none =>
        if approved then
          GateStep.continueApply
        else
          GateStep.failure
            "Pull request must be approved before running apply. (external)"
  else
    GateStep.continueApply

/-! ## Sample values used by concrete-input theorems -/

/-- A Bitbucket pull-request list response body in the shape the
`PullIsApproved` query requests (`fields=values.id,values.reviewers.approved`),
reporting one reviewer who approved. -/
def approvedPullJson : Json :=
  Json.obj [("values", Json.arr
    [Json.obj [("id", Json.num 1),
               ("reviewers", Json.arr
                 [Json.obj [("approved", Json.bool true)]])]])]

/-- Whether a reviewer object of the pull-request response reports
`approved: true`. -/
def reviewerApproved (r : Json) : Bool :=
  match r with
  | Json.obj fields =>
    match jsonLookup "approved" fields with
    | some (Json.bool true) => true
    | _ => false
  | _ => false

/-- Whether a pull-request object of the response has some approving
reviewer. -/
def pullObjApproved (p : Json) : Bool :=
  match p with
  | Json.obj fields =>
    match jsonLookup "reviewers" fields with
    | some (Json.arr rs) => rs.any reviewerApproved
    | _ => false
  | _ => false

/-- Whether the provider's API response reports the pull request as
approved: some listed pull request has an approving reviewer. -/
def apiReportsApproved (j : Json) : Bool :=
  match j with
  | Json.obj fields =>
    match jsonLookup "values" fields with
    | some (Json.arr ps) => ps.any pullObjApproved
    | _ => false
  | _ => false

def sampleRepo : Repo :=
  { Owner := "sixt-payment", Name := "infra", FullName := "sixt-payment/infra" }

def samplePull : PullRequest :=
  { Num := 7, HeadCommit := "abc123" }

/-- A 200 response whose body is the approved pull-request listing. -/
def approvedResponse : HttpResponse :=
  { statusCode := 200
    readBody := Except.ok (Body.json approvedPullJson "approved-body") }

/-! ## Theorems about the claims -/

/-- C1: `PullIsApproved` does not return `(true, nil)` when the
provider's API reports the pull request as approved: on a well-formed
200 response whose body reports an approving reviewer, the success
path still returns `(false, nil)` — the parsed response is never
inspected, so the claimed equivalence with the provider's approval
state fails. -/
theorem pullIsApproved_false_on_approved_response :
    apiReportsApproved approvedPullJson = true ∧
    PullIsApproved (Except.ok approvedResponse) = Except.ok false := by
  exact ⟨by decide, rfl⟩

/-- On a delivered response with a readable body, the external
approval gate either continues or produces the fixed "not approved"
failure — never an error and never a crash. -/
theorem externalGate_readable_dichotomy (status : Nat) (body : Body) :
    applyExternalApprovalGate true (Except.ok ())
        (Except.ok { statusCode := status, readBody := Except.ok body }) =
        GateStep.continueApply ∨
      applyExternalApprovalGate true (Except.ok ())
        (Except.ok { statusCode := status, readBody := Except.ok body }) =
        GateStep.failure
          "Pull request must be approved before running apply. (external)" := by
  by_cases h200 : status = 200
  · subst h200
    rcases hum : unmarshalExternalApproval body with _ | a
    · right
      simp [applyExternalApprovalGate, checkExternalApproval, hum]
    · by_cases hap : a.Approved = true
      · left
        simp [applyExternalApprovalGate, checkExternalApproval, hum, hap]
      · right
        simp [applyExternalApprovalGate, checkExternalApproval, hum, hap]
  · right
    simp [applyExternalApprovalGate, checkExternalApproval, h200]

/-- C2: with the gate enabled and the request constructed, the apply
command continues exactly on a 200 response whose body unmarshals with
`Approved` true; every other delivered readable response — any other
status, `Approved` false, or an unparseable body — yields the fixed
top-level "not approved" failure, not an error; a transport failure
yields the wrapped top-level error, and a top-level error arises only
from a transport failure or from a failed body read of a 200 response;
a request-construction failure crashes on the nil request before any
response is produced and grants no approval. -/
theorem applyExternalApproval_fail_closed :
    (∀ (status : Nat) (body : Body),
      applyExternalApprovalGate true (Except.ok ())
          (Except.ok { statusCode := status, readBody := Except.ok body }) =
          GateStep.continueApply ↔
        (status = 200 ∧ approvedDecoded body = some true)) ∧
    (∀ (status : Nat) (body : Body),
      applyExternalApprovalGate true (Except.ok ())
          (Except.ok { statusCode := status, readBody := Except.ok body }) =
          GateStep.continueApply ∨
        applyExternalApprovalGate true (Except.ok ())
          (Except.ok { statusCode := status, readBody := Except.ok body }) =
          GateStep.failure
            "Pull request must be approved before running apply. (external)") ∧
    (∀ m : String,
      applyExternalApprovalGate true (Except.ok ()) (Except.error m) =
        GateStep.errorResponse
          ("checking if pull request was approved (external): " ++ m)) ∧
    (∀ (newRequest : Except String Unit)
       (transport : Except String HttpResponse),
      (∃ m, applyExternalApprovalGate true newRequest transport =
          GateStep.errorResponse m) ↔
        ((∃ u, newRequest = Except.ok u) ∧
         ((∃ e, transport = Except.error e) ∨
          (∃ resp e, transport = Except.ok resp ∧ resp.statusCode = 200 ∧
            resp.readBody = Except.error e)))) ∧
    (∀ (e : String) (transport : Except String HttpResponse),
      applyExternalApprovalGate true (Except.error e) transport =
        GateStep.crash) := by
  refine ⟨?_, externalGate_readable_dichotomy, fun m => rfl, ?_, fun e t => rfl⟩
  · intro status body
    by_cases h200 : status = 200
    · subst h200
      rcases hum : unmarshalExternalApproval body with _ | a
      · simp [applyExternalApprovalGate, checkExternalApproval,
              approvedDecoded, hum]
      · by_cases hap : a.Approved = true
        · simp [applyExternalApprovalGate, checkExternalApproval,
                approvedDecoded, hum, hap]
        · simp [applyExternalApprovalGate, checkExternalApproval,
                approvedDecoded, hum, hap]
    · simp [applyExternalApprovalGate, checkExternalApproval,
            approvedDecoded, h200]
  · intro newRequest transport
    rcases newRequest with e | u
    · constructor
      · rintro ⟨m, hm⟩
        exact absurd hm (by simp [applyExternalApprovalGate,
          checkExternalApproval])
      · rintro ⟨⟨u, hu⟩, -⟩
        cases hu
    · rcases transport with e | resp
      · constructor
        · intro _
          exact ⟨⟨u, rfl⟩, Or.inl ⟨e, rfl⟩⟩
        · intro _
          exact ⟨_, rfl⟩
      · rcases resp with ⟨status, rb⟩
        by_cases h200 : status = 200
        · subst h200
          rcases rb with me | body
          · constructor
            · intro _
              exact ⟨⟨u, rfl⟩,
                Or.inr ⟨{ statusCode := 200, readBody := Except.error me },
                  me, rfl, rfl, rfl⟩⟩
            · intro _
              exact ⟨_, rfl⟩
          · constructor
            · rintro ⟨m, hm⟩
              rcases externalGate_readable_dichotomy 200 body with hc | hc
              · rw [hc] at hm
                exact GateStep.noConfusion hm
              · rw [hc] at hm
                exact GateStep.noConfusion hm
            · rintro ⟨-, h | h⟩
              · rcases h with ⟨e, he⟩
                exact Except.noConfusion he
              · rcases h with ⟨resp, e, hre, h2, hrb⟩
                injection hre with hre
                rw [← hre] at hrb
                exact Except.noConfusion hrb
        · constructor
          · rintro ⟨m, hm⟩
            have hfail : applyExternalApprovalGate true (Except.ok u)
                (Except.ok { statusCode := status, readBody := rb }) =
                GateStep.failure
                  "Pull request must be approved before running apply. (external)" := by
              simp [applyExternalApprovalGate, checkExternalApproval, h200]
            rw [hfail] at hm
            exact GateStep.noConfusion hm
          · rintro ⟨-, h | h⟩
            · rcases h with ⟨e, he⟩
              exact Except.noConfusion he
            · rcases h with ⟨resp, e, hre, h2, hrb⟩
              injection hre with hre
              rw [← hre] at h2
              exact absurd h2 h200

/-- C3: `UpdateStatus` maps Pending to "INPROGRESS", Success to
"SUCCESSFUL" and Failed to "FAILED", and no input state outside the
enumeration maps to the provider's success value (the switch default
is "FAILED"). -/
theorem updateStatus_commit_state_mapping :
    bbState Pending = "INPROGRESS" ∧
    bbState Success = "SUCCESSFUL" ∧
    bbState Failed = "FAILED" ∧
    ∀ (state : Nat) (description : String),
      ((updateStatusPayload state description).State = "SUCCESSFUL" ↔
        state = Success) := by
  refine ⟨rfl, rfl, rfl, ?_⟩
  intro state description
  show bbState state = "SUCCESSFUL" ↔ state = Success
  by_cases h0 : state = 0
  · subst h0; decide
  by_cases h1 : state = 1
  · subst h1; decide
  by_cases h2 : state = 2
  · subst h2; decide
  have hb : bbState state = "FAILED" := by
    simp [bbState, Pending, Success, Failed, h0, h1, h2]
  rw [hb]
  constructor
  · intro h
    exact absurd h (by decide)
  · intro h
    exact absurd h h1

/-- C5: `GetModifiedFiles` is a stub: it returns an empty file list
with a nil error for every repo and pull request — in particular for a
concrete pull request that modifies files — instead of the pull
request's modified paths. -/
theorem getModifiedFiles_returns_empty :
    GetModifiedFiles sampleRepo samplePull = Except.ok [] ∧
    ∀ (repo : Repo) (pull : PullRequest),
      GetModifiedFiles repo pull = Except.ok [] :=
  ⟨rfl, fun _ _ => rfl⟩

/-- C6: every request the Bitbucket client constructs has
`req.Close = true` (connection reuse disabled) and carries the
client's basic-auth credentials on the request itself. -/
theorem bitbucket_request_closed_and_authenticated
    (b : BitbucketClient) (method endpoint : String) (payload : Option Json) :
    (buildRequest b method endpoint payload).closeAfter = true ∧
    (buildRequest b method endpoint payload).basicAuth =
      some (b.username, b.password) :=
  ⟨rfl, rfl⟩

/-- C8: the request `do` constructs carries an empty body no matter
what payload is passed — the never-assigned `bodyreader` is handed to
`http.NewRequest` — so the status JSON encoded by `UpdateStatus` is
never transmitted. -/
theorem bitbucket_request_body_always_empty
    (b : BitbucketClient) (method endpoint : String) (payload : Option Json)
    (repo : Repo) (pull : PullRequest) (state : Nat) (description : String) :
    (buildRequest b method endpoint payload).body = none ∧
    (updateStatusRequest b repo pull state description).body = none :=
  ⟨rfl, rfl⟩

/-- C9: when `MkdirAll` succeeds, `writeAwsCredentials` returns nil
even when the file write fails, because the `if werr != nil` branch
returns the stale `err` variable, which is nil at that point. -/
theorem writeAwsCredentials_swallows_write_error :
    (∀ e : String, writeAwsCredentials none (some e) = none) ∧
    ∀ w : Option String, writeAwsCredentials none w = none := by
  refine ⟨fun e => rfl, ?_⟩
  intro w
  cases w <;> rfl

/-- C10: `do` returns a non-nil error for a delivered response exactly
when the status code is below 200 or at least 400; every 2xx and 3xx
response is returned to the caller as a success carrying the response
itself. -/
theorem do_error_iff_error_class_status (endpoint : String)
    (resp : HttpResponse) :
    ((∃ e, doRequest endpoint (Except.ok resp) = Except.error e) ↔
      (resp.statusCode < 200 ∨ 400 ≤ resp.statusCode)) ∧
    (doRequest endpoint (Except.ok resp) = Except.ok resp ∨
      (resp.statusCode < 200 ∨ 400 ≤ resp.statusCode)) := by
  have hshow : doRequest endpoint (Except.ok resp) = doResponse endpoint resp :=
    rfl
  by_cases h : 400 ≤ resp.statusCode ∨ resp.statusCode < 200
  · constructor
    · constructor
      · intro _
        exact h.symm
      · intro _
        rw [hshow]
        unfold doResponse
        rw [if_pos h]
        rcases hb : resp.readBody with m | body
        · exact ⟨DoError.readFail m, rfl⟩
        · exact ⟨_, rfl⟩
    · exact Or.inr h.symm
  · have h200 : 200 ≤ resp.statusCode := by omega
    have h400 : resp.statusCode < 400 := by omega
    have hok : doRequest endpoint (Except.ok resp) = Except.ok resp := by
      rw [hshow]
      unfold doResponse
      rw [if_neg h]
    constructor
    · constructor
      · rintro ⟨e, he⟩
        rw [hok] at he
        cases he
      · intro hc
        rcases hc with hc | hc
        · omega
        · omega
    · exact Or.inl hok

/-- C4: whenever a request completes with an error-class HTTP status
and the body is readable, `do` returns the single `bitbucketAPIError`
type carrying the HTTP status code, the endpoint called, and the
best-effort decoded message, which falls back to the raw response body
when the error payload does not parse. -/
theorem do_api_error_carries_diagnostics (endpoint : String)
    (resp : HttpResponse) (body : Body)
    (hread : resp.readBody = Except.ok body)
    (hstatus : resp.statusCode < 200 ∨ 400 ≤ resp.statusCode) :
    ∃ e : bitbucketAPIError,
      doRequest endpoint (Except.ok resp) = Except.error (DoError.api e) ∧
      e.StatusCode = resp.statusCode ∧
      e.Endpoint = endpoint ∧
      e.Message = bestEffortMessage body ∧
      (unmarshalBitbucketAPIError body = none →
        e.Message = body.rawText) := by
  have h : 400 ≤ resp.statusCode ∨ resp.statusCode < 200 := hstatus.symm
  refine ⟨{ Message := bestEffortMessage body
            typ := (match unmarshalBitbucketAPIError body with
                    | some (_, t) => t
                    | none => "")
            StatusCode := resp.statusCode
            Endpoint := endpoint }, ?_, rfl, rfl, rfl, ?_⟩
  · show doResponse endpoint resp = _
    unfold doResponse
    rw [if_pos h, hread]
  · intro hnone
    show bestEffortMessage body = body.rawText
    unfold bestEffortMessage
    rw [hnone]

/-- Witness for C4 at a concrete 404 response with an unparseable
body. -/
theorem do_api_error_carries_diagnostics_witness :
    (({ statusCode := 404, readBody := Except.ok (Body.raw "oops") } :
        HttpResponse).readBody = Except.ok (Body.raw "oops")) ∧
    (({ statusCode := 404, readBody := Except.ok (Body.raw "oops") } :
        HttpResponse).statusCode < 200 ∨
      400 ≤ ({ statusCode := 404, readBody := Except.ok (Body.raw "oops") } :
        HttpResponse).statusCode) ∧
    ∃ e : bitbucketAPIError,
      doRequest "pullrequests"
          (Except.ok { statusCode := 404
                       readBody := Except.ok (Body.raw "oops") }) =
        Except.error (DoError.api e) ∧
      e.StatusCode = 404 ∧
      e.Endpoint = "pullrequests" ∧
      e.Message = bestEffortMessage (Body.raw "oops") ∧
      (unmarshalBitbucketAPIError (Body.raw "oops") = none →
        e.Message = (Body.raw "oops").rawText) :=
  ⟨rfl, by decide,
    do_api_error_carries_diagnostics "pullrequests"
      { statusCode := 404, readBody := Except.ok (Body.raw "oops") }
      (Body.raw "oops") rfl (by decide)⟩

/-- C7: given valid non-credential fields, `validate` succeeds exactly
when the credentials form one of: GitHub user and token only, GitLab
user and token only, or all four set; a user without its token, a
token without its user, or no credentials at all is rejected. -/
theorem validate_vcs_credential_combinations (c : Config)
    (hlog : c.LogLevel = "debug" ∨ c.LogLevel = "info" ∨
      c.LogLevel = "warn" ∨ c.LogLevel = "error")
    (henv : c.EnvDetectionWorkflow = "modifiedfiles" ∨
      c.EnvDetectionWorkflow = "gitflow")
    (hmap : ∀ v ∈ c.GitflowEnvBranchMapping, countColon v = 1)
    (happr : c.RequireExternalApproval = true → c.ApprovalURL ≠ "") :
    validate c = none ↔
      ((c.GithubUser ≠ "" ∧ c.GithubToken ≠ "" ∧
          c.GitlabUser = "" ∧ c.GitlabToken = "") ∨
       (c.GitlabUser ≠ "" ∧ c.GitlabToken ≠ "" ∧
          c.GithubUser = "" ∧ c.GithubToken = "") ∨
       (c.GithubUser ≠ "" ∧ c.GithubToken ≠ "" ∧
          c.GitlabUser ≠ "" ∧ c.GitlabToken ≠ "")) := by
  have hfind : c.GitflowEnvBranchMapping.find? (fun v => countColon v != 1) =
      none := by
    rw [List.find?_eq_none]
    intro v hv
    simp [hmap v hv]
  have happr2 : ¬(c.RequireExternalApproval ∧ c.ApprovalURL = "") := by
    rintro ⟨h1, h2⟩
    exact happr h1 h2
  have hlog2 : ¬¬(c.LogLevel = "debug" ∨ c.LogLevel = "info" ∨
      c.LogLevel = "warn" ∨ c.LogLevel = "error") := not_not_intro hlog
  have henv2 : ¬¬(c.EnvDetectionWorkflow = "modifiedfiles" ∨
      c.EnvDetectionWorkflow = "gitflow") := not_not_intro henv
  by_cases hgu : c.GithubUser = "" <;> by_cases hgt : c.GithubToken = "" <;>
    by_cases hlu : c.GitlabUser = "" <;> by_cases hlt : c.GitlabToken = "" <;>
    simp [validate, hgu, hgt, hlu, hlt, hlog2, henv2, hfind, happr2]

/-- A configuration with valid non-credential fields and GitHub-only
credentials. -/
def sampleConfig : Config :=
  { LogLevel := "info"
    GithubUser := "atlantis-bot"
    GithubToken := "token"
    GitlabUser := ""
    GitlabToken := ""
    EnvDetectionWorkflow := "modifiedfiles"
    GitflowEnvBranchMapping := ["prod:master"]
    RequireExternalApproval := false
    ApprovalURL := "" }

/-- Witness for C7 at a concrete configuration with GitHub-only
credentials. -/
theorem validate_vcs_credential_combinations_witness :
    (sampleConfig.LogLevel = "debug" ∨ sampleConfig.LogLevel = "info" ∨
      sampleConfig.LogLevel = "warn" ∨ sampleConfig.LogLevel = "error") ∧
    (sampleConfig.EnvDetectionWorkflow = "modifiedfiles" ∨
      sampleConfig.EnvDetectionWorkflow = "gitflow") ∧
    (∀ v ∈ sampleConfig.GitflowEnvBranchMapping, countColon v = 1) ∧
    (sampleConfig.RequireExternalApproval = true →
      sampleConfig.ApprovalURL ≠ "") ∧
    (validate sampleConfig = none ↔
      ((sampleConfig.GithubUser ≠ "" ∧ sampleConfig.GithubToken ≠ "" ∧
          sampleConfig.GitlabUser = "" ∧ sampleConfig.GitlabToken = "") ∨
       (sampleConfig.GitlabUser ≠ "" ∧ sampleConfig.GitlabToken ≠ "" ∧
          sampleConfig.GithubUser = "" ∧ sampleConfig.GithubToken = "") ∨
       (sampleConfig.GithubUser ≠ "" ∧ sampleConfig.GithubToken ≠ "" ∧
          sampleConfig.GitlabUser ≠ "" ∧ sampleConfig.GitlabToken ≠ ""))) :=
  ⟨by decide, by decide, by decide, by decide,
    validate_vcs_credential_combinations sampleConfig (by decide) (by decide)
      (by decide) (by decide)⟩

end Atlantis
